import Mathlib

/-
  Verification development for the ups package (qpliu/ups): a shallow
  embedding of the handler-binding logic (UPSWithParameterAndConfig) and
  the per-request dispatch pipeline (upsHandler.ServeHTTP) from ups.go,
  together with theorems about the embedded definitions.
-/

namespace UPS

/-- Go types relevant to the binder, mirroring the reflect.Type values
compared in ups.go lines 56-61: the context.Context interface, the
*http.Request pointer type, pointer-to-proto-message types, error
implementations, and any other type. -/
inductive GoType where
  | contextTy : GoType
  | requestTy : GoType
  | msgPtr : String → GoType
  | errTy : String → GoType
  | otherTy : String → GoType
deriving DecidableEq, Repr

/-- reqType.Implements(messageType): only pointer-to-proto-message types
implement proto.Message in our fragment. -/
def GoType.implementsMessage : GoType → Bool
  | .msgPtr _ => true
  | _ => false

/-- ty.Out(1).Implements(errorType) in our fragment. -/
def GoType.implementsError : GoType → Bool
  | .errTy _ => true
  | _ => false

/-- reflect AssignableTo restricted to the concrete (non-interface)
target types the binder compares: assignability is type identity. -/
def assignableTo (t u : GoType) : Bool := t = u

/-- The shape of a handler func: its parameter and return types, as
reflect reports them (ty.In(i), ty.Out(i)). -/
structure FuncType where
  ins : List GoType
  outs : List GoType
deriving DecidableEq, Repr

/-- The six calling-convention variants, mirroring the handlerType
constants of ups.go lines 63-72. -/
inductive HandlerTy where
  | message
  | context
  | request
  | param
  | contextParam
  | requestParam
deriving DecidableEq, Repr

/-- The return-type validation of ups.go lines 201-213: return arity 2
requires Out(1) to implement error and (by fallthrough) Out(0) to
implement proto.Message; arity 1 requires Out(0) to implement
proto.Message; anything else is fatal. -/
def checkReturns : List GoType → Bool
  | [m] => m.implementsMessage
  | [m, e] => e.implementsError && m.implementsMessage
  | _ => false

/-- The parameter-arity switch of ups.go lines 217-246: yields the
variant, the request message type, and the declared bound-parameter
type when one exists; none models the fatal default branches. -/
def classifyIns : List GoType → Option (HandlerTy × GoType × Option GoType)
  | [r] => some (.message, r, none)
  | [a, r] =>
    if a = .contextTy then some (.context, r, none)
    else if a = .requestTy then some (.request, r, none)
    else some (.param, r, some a)
  | [a, p, r] =>
    if a = .contextTy then some (.contextParam, r, some p)
    else if a = .requestTy then some (.requestParam, r, some p)
    else none
  | _ => none

/-- The immutable bound plan produced by a successful construction. -/
structure Descriptor where
  hType : HandlerTy
  reqType : GoType
deriving DecidableEq, Repr

/-- UPSWithParameterAndConfig (ups.go lines 192-261) on the type level:
the argument paramVal is reflect.TypeOf(parameter) — none when the
supplied parameter is nil.  A construction panic is modelled as none. -/
def UPSWithParameterAndConfig (ty : FuncType) (paramVal : Option GoType) :
    Option Descriptor :=
  if !checkReturns ty.outs then none
  else
    match classifyIns ty.ins with
    | none => none
    | some (ht, reqTy, paramTy) =>
      if !reqTy.implementsMessage then none
      else
        match paramTy with
        | none => some ⟨ht, reqTy⟩
        | some pt =>
          match paramVal with
          | none => none
          | some vt => if assignableTo vt pt then some ⟨ht, reqTy⟩ else none

/-- The classification rule as the spec states it (spec section 4.1 rule 2):
arity 1 is message-only; arity 2 dispatches on whether the first
parameter is the transport-context type or the transport-request type,
anything else being the bound-parameter variant; arity 3 requires the
first parameter to be context or request; all other arities fail. -/
def specClassify : List GoType → Option HandlerTy
  | [_] => some .message
  | [a, _] =>
    if a = .contextTy then some .context
    else if a = .requestTy then some .request
    else some .param
  | [a, _, _] =>
    if a = .contextTy then some .contextParam
    else if a = .requestTy then some .requestParam
    else none
  | _ => none

/-- The return-shape rule as the spec states it (spec section 4.1 rule
1): return arity must be 1 (message only) or 2 (message, error-like),
the first return value a structured message. -/
def specReturnsOK (outs : List GoType) : Prop :=
  (∃ m, outs = [m] ∧ m.implementsMessage = true) ∨
  (∃ m e, outs = [m, e] ∧ m.implementsMessage = true ∧ e.implementsError = true)

/-- The declared bound-parameter type as the spec describes it: the
first parameter at arity 2 when it is neither the context nor the
request type, and the middle parameter at arity 3. -/
def specBoundParam : List GoType → Option GoType
  | [a, _] => if a = .contextTy ∨ a = .requestTy then none else some a
  | [_, p, _] => some p
  | _ => none

/-- The last parameter must be a structured message type (the request
message), per the spec's arity rules. -/
def specRequestOK (ins : List GoType) : Prop :=
  ∃ r, ins.getLast? = some r ∧ r.implementsMessage = true

/-- When a bound-parameter variant is selected, the supplied bound
parameter value's type must be assignable to the declared type (spec
section 4.1 rule 3). -/
def specParamOK (ins : List GoType) (pv : Option GoType) : Prop :=
  ∀ pt, specBoundParam ins = some pt →
    ∃ vt, pv = some vt ∧ assignableTo vt pt = true

/-- A handler shape the spec accepts: valid returns, a classifiable
parameter list, a structured-message request parameter, and an
assignable bound parameter when one is declared. -/
def specShapeValid (ty : FuncType) (pv : Option GoType) : Prop :=
  specReturnsOK ty.outs ∧ (specClassify ty.ins).isSome = true ∧
  specRequestOK ty.ins ∧ specParamOK ty.ins pv

/-- The parameter-side checks of the binder as one boolean: the arity
switch succeeds, the request type implements proto.Message, and a
declared bound-parameter type is matched by the supplied value. -/
def insOK (ins : List GoType) (pv : Option GoType) : Bool :=
  match classifyIns ins with
  | none => false
  | some (_, reqTy, paramTy) =>
    reqTy.implementsMessage &&
    (match paramTy with
     | none => true
     | some pt =>
       match pv with
       | none => false
       | some vt => assignableTo vt pt)

/-- The argument slots a dispatch passes to the handler: the request
context, the *http.Request, the registration-time bound parameter, or
the decoded request message. -/
inductive Arg (Msg : Type) where
  | ctx : Arg Msg
  | httpReq : Arg Msg
  | param : Arg Msg
  | msg : Msg → Arg Msg
deriving DecidableEq, Repr

/-- Argument assembly of ups.go lines 341-355, one case per variant. -/
def assembleArgs (ht : HandlerTy) (m : Msg) : List (Arg Msg) :=
  match ht with
  | .message => [.msg m]
  | .context => [.ctx, .msg m]
  | .request => [.httpReq, .msg m]
  | .param => [.param, .msg m]
  | .contextParam => [.ctx, .param, .msg m]
  | .requestParam => [.httpReq, .param, .msg m]

def HandlerTy.usesContext : HandlerTy → Bool
  | .context | .contextParam => true
  | _ => false

def HandlerTy.usesRequest : HandlerTy → Bool
  | .request | .requestParam => true
  | _ => false

def HandlerTy.usesParam : HandlerTy → Bool
  | .param | .contextParam | .requestParam => true
  | _ => false

/-- The documented argument order (spec section 4.4 step 5): context or
request first if applicable, then the bound parameter if applicable,
then the decoded message last. -/
def specArgs (ht : HandlerTy) (m : Msg) : List (Arg Msg) :=
  (if ht.usesContext then [Arg.ctx]
   else if ht.usesRequest then [Arg.httpReq] else [])
  ++ (if ht.usesParam then [Arg.param] else [])
  ++ [Arg.msg m]

/-- A Go error value as the dispatcher observes it: non-nil, carrying a
status code exactly when it implements StatusCoder (ups.go lines 93-95). -/
structure GoError where
  statusCode : Option Nat
deriving DecidableEq, Repr

/-- The observable outcome of calling the handler: a returned message
(with nil or absent error), a non-nil returned error, or a panic. -/
inductive HandlerOutcome (Msg : Type) where
  | ok : Msg → HandlerOutcome Msg
  | err : GoError → HandlerOutcome Msg
  | panicked : String → HandlerOutcome Msg

/-- Characters of a media type before any parameter section. -/
def mediaTypeChars : List Char → List Char
  | [] => []
  | c :: cs => if c = ';' then [] else c :: mediaTypeChars cs

/-- Model of the external mime.ParseMediaType on the fragment the code
uses: an empty (absent) header fails to parse; otherwise the media type
is the part before any parameters. -/
def parseMediaType (s : String) : Option String :=
  if s = "" then none
  else some (String.mk (mediaTypeChars s.data))

/-- The content negotiation of ups.go lines 298-317: some true is the
JSON (text) format, some false the binary format, none is a 415
rejection (parse failure, JSON without a configured marshaler, or an
unsupported media type). -/
def negotiateFormat (hasJSON : Bool) (header : String) : Option Bool :=
  match parseMediaType header with
  | none => none
  | some ct =>
    if ct = "application/json" then
      if hasJSON then some true else none
    else if ct = "application/octet-stream" ∨ ct = "application/x-protobuf" then
      some false
    else none

/-- One bound endpoint as the dispatcher sees it: the variant, the
configuration (whether a JSON marshaler is present, the optional error
body formatter), the external codecs, and the handler itself. -/
structure DispatchEnv (Msg : Type) where
  hType : HandlerTy
  hasJSONMarshaler : Bool
  jsonUnmarshal : List Nat → Option Msg
  protoUnmarshal : List Nat → Option Msg
  jsonMarshal : Msg → Option (List Nat)
  protoMarshal : Msg → Option (List Nat)
  handler : List (Arg Msg) → HandlerOutcome Msg
  errorResponse : Option (Nat → String)

/-- The observable events of one dispatch, in order: hooks, the body
read, pool borrow and return (with whether the message was reset),
decode and encode attempts, and the handler call. -/
inductive Event (Msg : Type) where
  | startRequest : Event Msg
  | bodyRead : Event Msg
  | poolGet : Event Msg
  | poolPut : Bool → Event Msg
  | decodeAttempt : Bool → Event Msg
  | handlerCall : List (Arg Msg) → Event Msg
  | encodeAttempt : Bool → Event Msg
  | panicHook : String → Event Msg
  | endRequest : Nat → Event Msg
deriving DecidableEq, Repr

/-- The response body: bytes written through the success path (w.Write)
or text written through the error path (http.Error). -/
inductive RespBody where
  | bytes : List Nat → RespBody
  | text : String → RespBody
deriving DecidableEq, Repr

structure HttpRequest where
  method : String
  contentType : String
  body : Option (List Nat)
deriving Repr

structure HttpResponse where
  status : Nat
  contentType : Option String
  body : RespBody
deriving DecidableEq, Repr

/-- Intermediate result of the recover-wrapped closure of ServeHTTP:
the status code, the encoded response bytes, the Content-Type header
value the closure set (none when it never set one), and the events. -/
structure InnerResult (Msg : Type) where
  status : Nat
  respBytes : List Nat
  ctHeader : Option String
  events : List (Event Msg)

/-- The pipeline from the pool Get (ups.go line 319) to the end of the
closure: decode into the pooled message, call the handler, interpret
its results, encode.  The deferred reset-and-put of lines 320-323 runs
on every exit, including the panic unwind, before the recover. -/
def afterNegotiate (env : DispatchEnv Msg) (req : List Nat) (json : Bool) :
    InnerResult Msg :=
  match (if json then env.jsonUnmarshal req else env.protoUnmarshal req) with
  | none =>
    { status := 500, respBytes := [], ctHeader := none
      events := [.poolGet, .decodeAttempt json, .poolPut true] }
  | some m =>
    let args := assembleArgs env.hType m
    match env.handler args with
    | .panicked v =>
      { status := 500, respBytes := [], ctHeader := none
        events := [.poolGet, .decodeAttempt json, .handlerCall args,
                   .poolPut true, .panicHook v] }
    | .err e =>
      { status := e.statusCode.getD 500, respBytes := [], ctHeader := none
        events := [.poolGet, .decodeAttempt json, .handlerCall args,
                   .poolPut true] }
    | .ok result =>
      match (if json then env.jsonMarshal result else env.protoMarshal result) with
      | none =>
        { status := 500, respBytes := [], ctHeader := none
          events := [.poolGet, .decodeAttempt json, .handlerCall args,
                     .encodeAttempt json, .poolPut true] }
      | some bs =>
        { status := 200, respBytes := bs
          ctHeader := some (if json then "application/json"
                            else "application/octet-stream")
          events := [.poolGet, .decodeAttempt json, .handlerCall args,
                     .encodeAttempt json, .poolPut true] }

/-- The recover-wrapped closure of ServeHTTP (ups.go lines 276-388):
method check, body read, content negotiation, then the pooled pipeline.
The body is read (line 291) before the media type is inspected (line
299), exactly as in the source. -/
def dispatchInner (env : DispatchEnv Msg) (r : HttpRequest) : InnerResult Msg :=
  if r.method = "POST" then
    match r.body with
    | none =>
      { status := 500, respBytes := [], ctHeader := none, events := [.bodyRead] }
    | some req =>
      match negotiateFormat env.hasJSONMarshaler r.contentType with
      | none =>
        { status := 415, respBytes := [], ctHeader := none, events := [.bodyRead] }
      | some json =>
        let inner := afterNegotiate env req json
        { inner with events := .bodyRead :: inner.events }
  else
    { status := 405, respBytes := [], ctHeader := none, events := [] }

structure ServeResult (Msg : Type) where
  response : HttpResponse
  trace : List (Event Msg)

/-- ServeHTTP (ups.go lines 271-405): run the closure, then write the
encoded bytes when the status is 200, or the error-body formatter's
text via http.Error otherwise; the start and end hooks bracket
everything. -/
def serveHTTP (env : DispatchEnv Msg) (r : HttpRequest) : ServeResult Msg :=
  let inner := dispatchInner env r
  { response :=
      if inner.status = 200 then
        { status := 200, contentType := inner.ctHeader
          body := .bytes inner.respBytes }
      else
        { status := inner.status, contentType := inner.ctHeader
          body := .text (match env.errorResponse with
                         | some f => f inner.status
                         | none => "") }
    trace := .startRequest :: inner.events ++ [.endRequest inner.status] }

/-- Serving a sequence of requests: the handler holds no mutable state
other than the pool, so each request is served independently. -/
def serveAll (env : DispatchEnv Msg) (rs : List HttpRequest) :
    List (ServeResult Msg) :=
  rs.map (serveHTTP env)

def isGet : Event Msg → Bool
  | .poolGet => true
  | _ => false

def isPut : Event Msg → Bool
  | .poolPut _ => true
  | _ => false

def isResetPut : Event Msg → Bool
  | .poolPut b => b
  | _ => false

/-- Every pool release in a list of events resets the message before
returning it to the pool. -/
def putsReset : List (Event Msg) → Bool
  | [] => true
  | e :: es => (!isPut e || isResetPut e) && putsReset es

/-- A concrete endpoint over Msg := Nat with trivial codecs, used to
evaluate the dispatcher on concrete requests. -/
def testEnv : DispatchEnv Nat where
  hType := .message
  hasJSONMarshaler := true
  jsonUnmarshal := fun bs => some bs.length
  protoUnmarshal := fun bs => some bs.length
  jsonMarshal := fun n => some [n]
  protoMarshal := fun n => some [n, n]
  handler := fun args =>
    match args with
    | [.msg n] => .ok (n + 1)
    | _ => .panicked "unexpected arguments"
  errorResponse := none

/-- A handler that ignores its arguments and returns the given outcome,
over Msg := Nat, with the trivial codecs of testEnv. -/
def constEnv (out : HandlerOutcome Nat) : DispatchEnv Nat :=
  { testEnv with handler := fun _ => out }

/-- A POST request with a JSON media type and a readable body. -/
def reqJSON : HttpRequest :=
  { method := "POST", contentType := "application/json", body := some [7] }

/-- A POST request with a binary media type and a readable body. -/
def reqBinary : HttpRequest :=
  { method := "POST", contentType := "application/octet-stream", body := some [7] }

/-- A POST request with an unsupported media type whose body read fails. -/
def reqPlainNoBody : HttpRequest :=
  { method := "POST", contentType := "text/plain", body := none }

/-- A POST request with an unsupported media type and a readable body. -/
def reqPlainBody : HttpRequest :=
  { method := "POST", contentType := "text/plain", body := some [7] }

/-- A GET request. -/
def reqGet : HttpRequest :=
  { method := "GET", contentType := "", body := none }

section Helpers

variable {Msg : Type}

lemma serveHTTP_trace (env : DispatchEnv Msg) (r : HttpRequest) :
    (serveHTTP env r).trace =
      .startRequest :: (dispatchInner env r).events
        ++ [.endRequest (dispatchInner env r).status] := rfl

lemma serveHTTP_status (env : DispatchEnv Msg) (r : HttpRequest) :
    (serveHTTP env r).response.status = (dispatchInner env r).status := by
  by_cases h : (dispatchInner env r).status = 200 <;> simp [serveHTTP, h]

lemma dispatchInner_notPost (env : DispatchEnv Msg) (r : HttpRequest)
    (hm : r.method ≠ "POST") :
    dispatchInner env r = ⟨405, [], none, []⟩ := by
  simp [dispatchInner, hm]

lemma dispatchInner_noBody (env : DispatchEnv Msg) (r : HttpRequest)
    (hm : r.method = "POST") (hb : r.body = none) :
    dispatchInner env r = ⟨500, [], none, [.bodyRead]⟩ := by
  simp [dispatchInner, hm, hb]

lemma dispatchInner_badMedia (env : DispatchEnv Msg) (r : HttpRequest)
    (bs : List Nat) (hm : r.method = "POST") (hb : r.body = some bs)
    (hneg : negotiateFormat env.hasJSONMarshaler r.contentType = none) :
    dispatchInner env r = ⟨415, [], none, [.bodyRead]⟩ := by
  simp [dispatchInner, hm, hb, hneg]

lemma dispatchInner_negotiated (env : DispatchEnv Msg) (r : HttpRequest)
    (bs : List Nat) (json : Bool) (hm : r.method = "POST") (hb : r.body = some bs)
    (hneg : negotiateFormat env.hasJSONMarshaler r.contentType = some json) :
    dispatchInner env r =
      ⟨(afterNegotiate env bs json).status, (afterNegotiate env bs json).respBytes,
       (afterNegotiate env bs json).ctHeader,
       .bodyRead :: (afterNegotiate env bs json).events⟩ := by
  simp [dispatchInner, hm, hb, hneg]

lemma afterNegotiate_decodeFail (env : DispatchEnv Msg) (bs : List Nat) (json : Bool)
    (hdec : (if json then env.jsonUnmarshal bs else env.protoUnmarshal bs) = none) :
    afterNegotiate env bs json =
      ⟨500, [], none, [.poolGet, .decodeAttempt json, .poolPut true]⟩ := by
  rw [afterNegotiate, hdec]

lemma afterNegotiate_panicked (env : DispatchEnv Msg) (bs : List Nat) (json : Bool)
    (m : Msg) (v : String)
    (hdec : (if json then env.jsonUnmarshal bs else env.protoUnmarshal bs) = some m)
    (hh : env.handler (assembleArgs env.hType m) = .panicked v) :
    afterNegotiate env bs json =
      ⟨500, [], none,
       [.poolGet, .decodeAttempt json, .handlerCall (assembleArgs env.hType m),
        .poolPut true, .panicHook v]⟩ := by
  rw [afterNegotiate, hdec]
  simp only [hh]

lemma afterNegotiate_err (env : DispatchEnv Msg) (bs : List Nat) (json : Bool)
    (m : Msg) (e : GoError)
    (hdec : (if json then env.jsonUnmarshal bs else env.protoUnmarshal bs) = some m)
    (hh : env.handler (assembleArgs env.hType m) = .err e) :
    afterNegotiate env bs json =
      ⟨e.statusCode.getD 500, [], none,
       [.poolGet, .decodeAttempt json, .handlerCall (assembleArgs env.hType m),
        .poolPut true]⟩ := by
  rw [afterNegotiate, hdec]
  simp only [hh]

lemma afterNegotiate_okEncoded (env : DispatchEnv Msg) (bs : List Nat) (json : Bool)
    (m result : Msg) (enc : List Nat)
    (hdec : (if json then env.jsonUnmarshal bs else env.protoUnmarshal bs) = some m)
    (hh : env.handler (assembleArgs env.hType m) = .ok result)
    (henc : (if json then env.jsonMarshal result else env.protoMarshal result) = some enc) :
    afterNegotiate env bs json =
      ⟨200, enc,
       some (if json then "application/json" else "application/octet-stream"),
       [.poolGet, .decodeAttempt json, .handlerCall (assembleArgs env.hType m),
        .encodeAttempt json, .poolPut true]⟩ := by
  rw [afterNegotiate, hdec]
  simp only [hh, henc]

lemma afterNegotiate_okEncodeFail (env : DispatchEnv Msg) (bs : List Nat) (json : Bool)
    (m result : Msg)
    (hdec : (if json then env.jsonUnmarshal bs else env.protoUnmarshal bs) = some m)
    (hh : env.handler (assembleArgs env.hType m) = .ok result)
    (henc : (if json then env.jsonMarshal result else env.protoMarshal result) = none) :
    afterNegotiate env bs json =
      ⟨500, [], none,
       [.poolGet, .decodeAttempt json, .handlerCall (assembleArgs env.hType m),
        .encodeAttempt json, .poolPut true]⟩ := by
  rw [afterNegotiate, hdec]
  simp only [hh, henc]

lemma putsReset_append (l₁ l₂ : List (Event Msg)) :
    putsReset (l₁ ++ l₂) = (putsReset l₁ && putsReset l₂) := by
  induction l₁ with
  | nil => rfl
  | cons e es ih => simp [putsReset, ih, Bool.and_assoc]

lemma afterNegotiate_pool (env : DispatchEnv Msg) (bs : List Nat) (json : Bool) :
    ((afterNegotiate env bs json).events.countP isGet = 1) ∧
    ((afterNegotiate env bs json).events.countP isPut = 1) ∧
    (putsReset (afterNegotiate env bs json).events = true) := by
  rcases hdec : (if json then env.jsonUnmarshal bs else env.protoUnmarshal bs)
    with _ | m
  · rw [afterNegotiate_decodeFail env bs json hdec]
    simp [List.countP_cons, isGet, isPut, isResetPut, putsReset]
  · rcases hh : env.handler (assembleArgs env.hType m) with result | e | v
    · rcases henc : (if json then env.jsonMarshal result else env.protoMarshal result)
        with _ | enc
      · rw [afterNegotiate_okEncodeFail env bs json m result hdec hh henc]
        simp [List.countP_cons, isGet, isPut, isResetPut, putsReset]
      · rw [afterNegotiate_okEncoded env bs json m result enc hdec hh henc]
        simp [List.countP_cons, isGet, isPut, isResetPut, putsReset]
    · rw [afterNegotiate_err env bs json m e hdec hh]
      simp [List.countP_cons, isGet, isPut, isResetPut, putsReset]
    · rw [afterNegotiate_panicked env bs json m v hdec hh]
      simp [List.countP_cons, isGet, isPut, isResetPut, putsReset]

lemma afterNegotiate_decodeAttempt_mem (env : DispatchEnv Msg) (bs : List Nat)
    (json : Bool) :
    Event.decodeAttempt json ∈ (afterNegotiate env bs json).events := by
  rcases hdec : (if json then env.jsonUnmarshal bs else env.protoUnmarshal bs)
    with _ | m
  · rw [afterNegotiate_decodeFail env bs json hdec]; simp
  · rcases hh : env.handler (assembleArgs env.hType m) with result | e | v
    · rcases henc : (if json then env.jsonMarshal result else env.protoMarshal result)
        with _ | enc
      · rw [afterNegotiate_okEncodeFail env bs json m result hdec hh henc]; simp
      · rw [afterNegotiate_okEncoded env bs json m result enc hdec hh henc]; simp
    · rw [afterNegotiate_err env bs json m e hdec hh]; simp
    · rw [afterNegotiate_panicked env bs json m v hdec hh]; simp

lemma afterNegotiate_decodeAttempt_eq (env : DispatchEnv Msg) (bs : List Nat)
    (json j : Bool) (hmem : Event.decodeAttempt j ∈ (afterNegotiate env bs json).events) :
    j = json := by
  rcases hdec : (if json then env.jsonUnmarshal bs else env.protoUnmarshal bs)
    with _ | m
  · rw [afterNegotiate_decodeFail env bs json hdec] at hmem
    simp at hmem; exact hmem
  · rcases hh : env.handler (assembleArgs env.hType m) with result | e | v
    · rcases henc : (if json then env.jsonMarshal result else env.protoMarshal result)
        with _ | enc
      · rw [afterNegotiate_okEncodeFail env bs json m result hdec hh henc] at hmem
        simp at hmem; exact hmem
      · rw [afterNegotiate_okEncoded env bs json m result enc hdec hh henc] at hmem
        simp at hmem; exact hmem
    · rw [afterNegotiate_err env bs json m e hdec hh] at hmem
      simp at hmem; exact hmem
    · rw [afterNegotiate_panicked env bs json m v hdec hh] at hmem
      simp at hmem; exact hmem

lemma afterNegotiate_ctHeader (env : DispatchEnv Msg) (bs : List Nat) (json : Bool)
    (h : (afterNegotiate env bs json).status ≠ 200) :
    (afterNegotiate env bs json).ctHeader = none := by
  rcases hdec : (if json then env.jsonUnmarshal bs else env.protoUnmarshal bs)
    with _ | m
  · rw [afterNegotiate_decodeFail env bs json hdec]
  · rcases hh : env.handler (assembleArgs env.hType m) with result | e | v
    · rcases henc : (if json then env.jsonMarshal result else env.protoMarshal result)
        with _ | enc
      · rw [afterNegotiate_okEncodeFail env bs json m result hdec hh henc]
      · rw [afterNegotiate_okEncoded env bs json m result enc hdec hh henc] at h ⊢
        exact absurd rfl h
    · rw [afterNegotiate_err env bs json m e hdec hh]
    · rw [afterNegotiate_panicked env bs json m v hdec hh]

lemma dispatchInner_ctHeader (env : DispatchEnv Msg) (r : HttpRequest)
    (h : (dispatchInner env r).status ≠ 200) :
    (dispatchInner env r).ctHeader = none := by
  by_cases hm : r.method = "POST"
  · rcases hb : r.body with _ | bs
    · rw [dispatchInner_noBody env r hm hb]
    · rcases hneg : negotiateFormat env.hasJSONMarshaler r.contentType with _ | json
      · rw [dispatchInner_badMedia env r bs hm hb hneg]
      · rw [dispatchInner_negotiated env r bs json hm hb hneg] at h ⊢
        exact afterNegotiate_ctHeader env bs json h
  · rw [dispatchInner_notPost env r hm]

lemma classifyIns_fst (ins : List GoType) :
    (classifyIns ins).map (fun x => x.1) = specClassify ins := by
  rcases ins with _ | ⟨a, _ | ⟨b, _ | ⟨c, _ | ⟨d, rest⟩⟩⟩⟩
  · rfl
  · rfl
  · by_cases h1 : a = GoType.contextTy
    · simp [classifyIns, specClassify, h1]
    · by_cases h2 : a = GoType.requestTy <;>
        simp [classifyIns, specClassify, h1, h2]
  · by_cases h1 : a = GoType.contextTy
    · simp [classifyIns, specClassify, h1]
    · by_cases h2 : a = GoType.requestTy <;>
        simp [classifyIns, specClassify, h1, h2]
  · rfl

lemma checkReturns_iff (outs : List GoType) :
    checkReturns outs = true ↔ specReturnsOK outs := by
  simp only [specReturnsOK]
  rcases outs with _ | ⟨m, _ | ⟨e, _ | ⟨x, rest⟩⟩⟩
  · simp [checkReturns]
  · simp [checkReturns]
  · simp only [checkReturns, Bool.and_eq_true]
    constructor
    · rintro ⟨h1, h2⟩
      exact Or.inr ⟨m, e, rfl, h2, h1⟩
    · rintro (⟨m', h1, _⟩ | ⟨m', e', heq, hmm, hee⟩)
      · exact absurd h1 (by simp)
      · injection heq with hm1 htail
        injection htail with hm2 _
        subst hm1
        subst hm2
        exact ⟨hee, hmm⟩
  · simp [checkReturns]

lemma bind_isSome (ty : FuncType) (pv : Option GoType) :
    (UPSWithParameterAndConfig ty pv).isSome =
      (checkReturns ty.outs && insOK ty.ins pv) := by
  cases hr : checkReturns ty.outs
  · simp [UPSWithParameterAndConfig, hr]
  · rcases hci : classifyIns ty.ins with _ | ⟨ht, reqTy, paramTy⟩
    · simp [UPSWithParameterAndConfig, insOK, hci, hr]
    · cases hm : reqTy.implementsMessage
      · simp [UPSWithParameterAndConfig, insOK, hci, hr, hm]
      · rcases paramTy with _ | pt
        · simp [UPSWithParameterAndConfig, insOK, hci, hr, hm]
        · rcases pv with _ | vt
          · simp [UPSWithParameterAndConfig, insOK, hci, hr, hm]
          · cases ha : assignableTo vt pt <;>
              simp [UPSWithParameterAndConfig, insOK, hci, hr, hm, ha]

lemma insOK_iff (ins : List GoType) (pv : Option GoType) :
    insOK ins pv = true ↔
      ((specClassify ins).isSome = true ∧ specRequestOK ins ∧
       specParamOK ins pv) := by
  rcases ins with _ | ⟨a, _ | ⟨b, _ | ⟨c, _ | ⟨d, rest⟩⟩⟩⟩
  · simp [insOK, classifyIns, specClassify, specRequestOK, specParamOK,
      specBoundParam]
  · simp [insOK, classifyIns, specClassify, specRequestOK, specParamOK,
      specBoundParam]
  · by_cases h1 : a = GoType.contextTy
    · simp [insOK, classifyIns, specClassify, specRequestOK, specParamOK,
        specBoundParam, h1]
    · by_cases h2 : a = GoType.requestTy
      · simp [insOK, classifyIns, specClassify, specRequestOK, specParamOK,
          specBoundParam, h1, h2]
      · rcases pv with _ | vt <;>
          simp [insOK, classifyIns, specClassify, specRequestOK, specParamOK,
            specBoundParam, h1, h2, Bool.and_eq_true]
  · by_cases h1 : a = GoType.contextTy
    · rcases pv with _ | vt <;>
        simp [insOK, classifyIns, specClassify, specRequestOK, specParamOK,
          specBoundParam, h1, Bool.and_eq_true]
    · by_cases h2 : a = GoType.requestTy
      · rcases pv with _ | vt <;>
          simp [insOK, classifyIns, specClassify, specRequestOK, specParamOK,
            specBoundParam, h1, h2, Bool.and_eq_true]
      · simp [insOK, classifyIns, specClassify, specRequestOK, specParamOK,
          specBoundParam, h1, h2]
  · simp [insOK, classifyIns, specClassify, specRequestOK, specParamOK,
      specBoundParam]

lemma serveHTTP_error_response (env : DispatchEnv Msg) (r : HttpRequest)
    (h : (dispatchInner env r).status ≠ 200) :
    (serveHTTP env r).response =
      { status := (dispatchInner env r).status
        contentType := (dispatchInner env r).ctHeader
        body := .text (match env.errorResponse with
                       | some f => f (dispatchInner env r).status
                       | none => "") } := by
  simp [serveHTTP, h]

end Helpers

/-- Claim C9: for every request whose method is not POST, the dispatcher
responds 405; the trace is exactly the start hook followed by the end
hook — in particular no body read and no pool acquisition happen — so
the body is never read and content negotiation never runs. -/
theorem c9_method_not_allowed {Msg : Type} (env : DispatchEnv Msg)
    (r : HttpRequest) (hm : r.method ≠ "POST") :
    (serveHTTP env r).response.status = 405 ∧
    (serveHTTP env r).trace = [.startRequest, .endRequest 405] ∧
    Event.bodyRead ∉ (serveHTTP env r).trace ∧
    Event.poolGet ∉ (serveHTTP env r).trace := by
  have h := dispatchInner_notPost env r hm
  refine ⟨?_, ?_, ?_, ?_⟩
  · rw [serveHTTP_status, h]
  · rw [serveHTTP_trace, h]; rfl
  · rw [serveHTTP_trace, h]; simp
  · rw [serveHTTP_trace, h]; simp

/-- Witness for C9 at a concrete GET request. -/
theorem c9_witness :
    (serveHTTP testEnv reqGet).response.status = 405 :=
  (c9_method_not_allowed testEnv reqGet (by decide)).1

/-- Claim C2: in every dispatch trace, the number of pool releases
equals the number of pool acquisitions, at most one instance is
acquired, every release resets the message before returning it to the
pool, and the trace ends with the end-of-request hook — so no dispatch
completes with an outstanding pooled instance on any exit path
(success, decode failure, handler error, or panic). -/
theorem c2_pool_release {Msg : Type} (env : DispatchEnv Msg) (r : HttpRequest) :
    (serveHTTP env r).trace.countP isGet = (serveHTTP env r).trace.countP isPut ∧
    (serveHTTP env r).trace.countP isGet ≤ 1 ∧
    putsReset (serveHTTP env r).trace = true ∧
    (serveHTTP env r).trace.getLast? =
      some (.endRequest (serveHTTP env r).response.status) := by
  have hlast : (serveHTTP env r).trace.getLast? =
      some (.endRequest (serveHTTP env r).response.status) := by
    rw [serveHTTP_trace, serveHTTP_status]
    exact List.getLast?_concat _
  refine ⟨?_, ?_, ?_, hlast⟩ <;>
  · by_cases hm : r.method = "POST"
    · rcases hb : r.body with _ | bs
      · rw [serveHTTP_trace, dispatchInner_noBody env r hm hb]
        simp [List.countP_cons, isGet, isPut, isResetPut, putsReset]
      · rcases hneg : negotiateFormat env.hasJSONMarshaler r.contentType
          with _ | json
        · rw [serveHTTP_trace, dispatchInner_badMedia env r bs hm hb hneg]
          simp [List.countP_cons, isGet, isPut, isResetPut, putsReset]
        · rw [serveHTTP_trace, dispatchInner_negotiated env r bs json hm hb hneg]
          obtain ⟨h1, h2, h3⟩ := afterNegotiate_pool env bs json
          simp [List.countP_cons, List.countP_append, putsReset_append,
            putsReset, isGet, isPut, isResetPut, h1, h2, h3]
    · rw [serveHTTP_trace, dispatchInner_notPost env r hm]
      simp [List.countP_cons, isGet, isPut, isResetPut, putsReset]

/-- Claim C3: when the handler declares an error return and returns a
non-nil error, the response status is the error's StatusCode() value
verbatim when it implements StatusCoder and 500 otherwise, and the
dispatcher never attempts to encode the returned message. -/
theorem c3_error_status {Msg : Type} (env : DispatchEnv Msg) (r : HttpRequest)
    (bs : List Nat) (json : Bool) (m : Msg) (e : GoError)
    (hm : r.method = "POST") (hb : r.body = some bs)
    (hneg : negotiateFormat env.hasJSONMarshaler r.contentType = some json)
    (hdec : (if json then env.jsonUnmarshal bs else env.protoUnmarshal bs) = some m)
    (hh : env.handler (assembleArgs env.hType m) = .err e) :
    (serveHTTP env r).response.status = e.statusCode.getD 500 ∧
    (∀ j, Event.encodeAttempt j ∉ (serveHTTP env r).trace) := by
  have hd := dispatchInner_negotiated env r bs json hm hb hneg
  have ha := afterNegotiate_err env bs json m e hdec hh
  constructor
  · rw [serveHTTP_status, hd, ha]
  · intro j
    rw [serveHTTP_trace, hd, ha]
    simp

/-- Witness for C3: a handler returning an error with StatusCode() = 418
yields response status 418. -/
theorem c3_witness :
    (serveHTTP (constEnv (.err ⟨some 418⟩)) reqJSON).response.status = 418 :=
  (c3_error_status (constEnv (.err ⟨some 418⟩)) reqJSON
    [7] true 1 ⟨some 418⟩ rfl rfl (by decide) rfl rfl).1

/-- Claim C4: a panic in the handler is contained inside the dispatch:
the panic hook fires with the panic value, the response status is 500,
the dispatch still runs to completion (the end-of-request hook is the
last event), and serving any sequence of requests decomposes request by
request, so subsequent requests are served exactly as if the panicking
request had never happened. -/
theorem c4_panic_contained {Msg : Type} (env : DispatchEnv Msg) (r : HttpRequest)
    (bs : List Nat) (json : Bool) (m : Msg) (v : String)
    (hm : r.method = "POST") (hb : r.body = some bs)
    (hneg : negotiateFormat env.hasJSONMarshaler r.contentType = some json)
    (hdec : (if json then env.jsonUnmarshal bs else env.protoUnmarshal bs) = some m)
    (hh : env.handler (assembleArgs env.hType m) = .panicked v) :
    (serveHTTP env r).response.status = 500 ∧
    Event.panicHook v ∈ (serveHTTP env r).trace ∧
    (serveHTTP env r).trace.getLast? = some (.endRequest 500) ∧
    (∀ rs : List HttpRequest,
       serveAll env (rs ++ [r]) = serveAll env rs ++ [serveHTTP env r]) := by
  have hd := dispatchInner_negotiated env r bs json hm hb hneg
  have ha := afterNegotiate_panicked env bs json m v hdec hh
  refine ⟨?_, ?_, ?_, ?_⟩
  · rw [serveHTTP_status, hd, ha]
  · rw [serveHTTP_trace, hd, ha]
    simp
  · rw [serveHTTP_trace, hd, ha]
    exact List.getLast?_concat _
  · intro rs
    simp [serveAll]

/-- Witness for C4: a request decoded to a message on which the handler
panics is answered 500 with the panic hook fired. -/
theorem c4_witness :
    (serveHTTP (constEnv (.panicked "boom")) reqBinary).response.status = 500 ∧
    Event.panicHook "boom" ∈
      (serveHTTP (constEnv (.panicked "boom")) reqBinary).trace :=
  ⟨(c4_panic_contained (constEnv (.panicked "boom")) reqBinary
      [7] false 1 "boom" rfl rfl (by decide) rfl rfl).1,
   (c4_panic_contained (constEnv (.panicked "boom")) reqBinary
      [7] false 1 "boom" rfl rfl (by decide) rfl rfl).2.1⟩

/-- Claim C10: a handler error whose StatusCode() yields 200 produces a
200 response with an empty body written through the success write path
(a bytes body, not the error-formatter text), no Content-Type header,
and no encode attempt. -/
theorem c10_error_status_200 {Msg : Type} (env : DispatchEnv Msg)
    (r : HttpRequest) (bs : List Nat) (json : Bool) (m : Msg) (e : GoError)
    (hm : r.method = "POST") (hb : r.body = some bs)
    (hneg : negotiateFormat env.hasJSONMarshaler r.contentType = some json)
    (hdec : (if json then env.jsonUnmarshal bs else env.protoUnmarshal bs) = some m)
    (hh : env.handler (assembleArgs env.hType m) = .err e)
    (hsc : e.statusCode = some 200) :
    (serveHTTP env r).response =
      { status := 200, contentType := none, body := .bytes [] } ∧
    (∀ j, Event.encodeAttempt j ∉ (serveHTTP env r).trace) := by
  have hd := dispatchInner_negotiated env r bs json hm hb hneg
  have ha := afterNegotiate_err env bs json m e hdec hh
  constructor
  · show (if (dispatchInner env r).status = 200 then _ else _) = _
    rw [hd, ha, hsc]
    rfl
  · intro j
    rw [serveHTTP_trace, hd, ha]
    simp

/-- Witness for C10 at a concrete handler returning an error with
StatusCode() = 200. -/
theorem c10_witness :
    (serveHTTP (constEnv (.err ⟨some 200⟩)) reqJSON).response =
      { status := 200, contentType := none, body := .bytes [] } :=
  (c10_error_status_200 (constEnv (.err ⟨some 200⟩)) reqJSON
    [7] true 1 ⟨some 200⟩ rfl rfl (by decide) rfl rfl rfl).1

/-- Claim C5: for a POST request (with a readable body), content
negotiation maps the declared media type as stated: parse failure or an
absent header rejects, application/json selects the JSON (text) format
unless no JSON marshaler is configured, application/octet-stream and
application/x-protobuf select the binary format, anything else rejects;
rejection answers 415 and acceptance decodes with the selected format. -/
theorem c5_content_negotiation {Msg : Type} (env : DispatchEnv Msg)
    (r : HttpRequest) (bs : List Nat)
    (hm : r.method = "POST") (hb : r.body = some bs) :
    (negotiateFormat env.hasJSONMarshaler r.contentType = none →
       (serveHTTP env r).response.status = 415) ∧
    (parseMediaType r.contentType = none →
       negotiateFormat env.hasJSONMarshaler r.contentType = none) ∧
    (r.contentType = "" → (serveHTTP env r).response.status = 415) ∧
    (parseMediaType r.contentType = some "application/json" →
       negotiateFormat env.hasJSONMarshaler r.contentType =
         (if env.hasJSONMarshaler then some true else none)) ∧
    (∀ ct, parseMediaType r.contentType = some ct →
       (ct = "application/octet-stream" ∨ ct = "application/x-protobuf") →
       negotiateFormat env.hasJSONMarshaler r.contentType = some false) ∧
    (∀ ct, parseMediaType r.contentType = some ct → ct ≠ "application/json" →
       ct ≠ "application/octet-stream" → ct ≠ "application/x-protobuf" →
       negotiateFormat env.hasJSONMarshaler r.contentType = none) ∧
    (∀ json, negotiateFormat env.hasJSONMarshaler r.contentType = some json →
       Event.decodeAttempt json ∈ (serveHTTP env r).trace) := by
  refine ⟨?_, ?_, ?_, ?_, ?_, ?_, ?_⟩
  · intro hneg
    rw [serveHTTP_status, dispatchInner_badMedia env r bs hm hb hneg]
  · intro hp
    rw [negotiateFormat, hp]
  · intro hct
    have hp : parseMediaType r.contentType = none := by
      rw [hct]; rfl
    have hneg : negotiateFormat env.hasJSONMarshaler r.contentType = none := by
      rw [negotiateFormat, hp]
    rw [serveHTTP_status, dispatchInner_badMedia env r bs hm hb hneg]
  · intro hp
    rw [negotiateFormat, hp]
    simp
  · intro ct hp hor
    rw [negotiateFormat, hp]
    have hne : ct ≠ "application/json" := by
      rcases hor with h | h <;> rw [h] <;> decide
    simp [hne, hor]
  · intro ct hp h1 h2 h3
    rw [negotiateFormat, hp]
    simp [h1, h2, h3]
  · intro json hneg
    rw [serveHTTP_trace, dispatchInner_negotiated env r bs json hm hb hneg]
    simp [afterNegotiate_decodeAttempt_mem env bs json]

/-- Witness for C5: an application/json request with a marshaler
configured negotiates the JSON format, and a text/plain request is
answered 415. -/
theorem c5_witness :
    negotiateFormat testEnv.hasJSONMarshaler reqJSON.contentType =
      (if testEnv.hasJSONMarshaler then some true else none) ∧
    (serveHTTP testEnv reqPlainBody).response.status = 415 :=
  ⟨(c5_content_negotiation testEnv reqJSON [7] rfl rfl).2.2.2.1 (by decide),
   (c5_content_negotiation testEnv reqPlainBody [7] rfl rfl).1 (by decide)⟩

/-- Counterexample to claim C6: the source reads the request body
(ups.go line 291) before inspecting the media type (line 299).  For the
POST request with Content-Type text/plain whose body read fails, the
claim requires a 415 answer with no body read, but the code answers 500
from the failed read; and the 415 answer for the same media type with a
readable body carries a body-read event in its trace. -/
theorem c6_counterexample :
    (serveHTTP testEnv reqPlainNoBody).response.status = 500 ∧
    (serveHTTP testEnv reqPlainNoBody).response.status ≠ 415 ∧
    Event.bodyRead ∈ (serveHTTP testEnv reqPlainBody).trace ∧
    (serveHTTP testEnv reqPlainBody).response.status = 415 := by
  refine ⟨rfl, by decide, ?_, rfl⟩
  show Event.bodyRead ∈ [Event.startRequest, Event.bodyRead, Event.endRequest 415]
  simp

/-- Amended claim C6: the dispatcher reads the full request body before
content negotiation, so a body-read I/O failure yields 500 regardless
of the media type, a malformed or unsupported media type is answered
415 only after the body has been read, and a decode attempt happens
only on a request whose media type was accepted, with the negotiated
format. -/
theorem c6_amended {Msg : Type} (env : DispatchEnv Msg) (r : HttpRequest) :
    (r.method = "POST" → r.body = none →
       (serveHTTP env r).response.status = 500) ∧
    ((serveHTTP env r).response.status = 415 →
       Event.bodyRead ∈ (serveHTTP env r).trace) ∧
    (∀ json, Event.decodeAttempt json ∈ (serveHTTP env r).trace →
       negotiateFormat env.hasJSONMarshaler r.contentType = some json ∧
       r.method = "POST" ∧ r.body ≠ none) := by
  refine ⟨?_, ?_, ?_⟩
  · intro hm hb
    rw [serveHTTP_status, dispatchInner_noBody env r hm hb]
  · intro h415
    by_cases hm : r.method = "POST"
    · rcases hb : r.body with _ | bs
      · rw [serveHTTP_trace, dispatchInner_noBody env r hm hb]
        simp
      · rcases hneg : negotiateFormat env.hasJSONMarshaler r.contentType
          with _ | json
        · rw [serveHTTP_trace, dispatchInner_badMedia env r bs hm hb hneg]
          simp
        · rw [serveHTTP_trace, dispatchInner_negotiated env r bs json hm hb hneg]
          simp
    · rw [serveHTTP_status, dispatchInner_notPost env r hm] at h415
      simp at h415
  · intro json hmem
    by_cases hm : r.method = "POST"
    · rcases hb : r.body with _ | bs
      · rw [serveHTTP_trace, dispatchInner_noBody env r hm hb] at hmem
        simp at hmem
      · rcases hneg : negotiateFormat env.hasJSONMarshaler r.contentType
          with _ | json'
        · rw [serveHTTP_trace, dispatchInner_badMedia env r bs hm hb hneg] at hmem
          simp at hmem
        · rw [serveHTTP_trace,
            dispatchInner_negotiated env r bs json' hm hb hneg] at hmem
          simp at hmem
          have hjj : json = json' :=
            afterNegotiate_decodeAttempt_eq env bs json' json hmem
          refine ⟨?_, hm, ?_⟩
          · rw [hjj]
          · exact Option.some_ne_none bs
    · rw [serveHTTP_trace, dispatchInner_notPost env r hm] at hmem
      simp at hmem

/-- Witness for the amended C6: a POST whose body read fails is
answered 500 even though its media type is unsupported. -/
theorem c6_amended_witness :
    (serveHTTP testEnv reqPlainNoBody).response.status = 500 :=
  (c6_amended testEnv reqPlainNoBody).1 rfl rfl

/-- Claim C8: a successful dispatch (handler returned a message with no
error, encoding succeeded) answers 200 with the Content-Type of the
negotiated format (application/json for the text format,
application/octet-stream for the binary format) and the codec encoding
of the returned message as body; an encode failure answers 500; and on
every non-200 path the negotiated Content-Type is not set and the body
is the optional error-body formatter's text, empty by default. -/
theorem c8_response_shape {Msg : Type} (env : DispatchEnv Msg) (r : HttpRequest)
    (bs : List Nat) (json : Bool) (m result : Msg)
    (hm : r.method = "POST") (hb : r.body = some bs)
    (hneg : negotiateFormat env.hasJSONMarshaler r.contentType = some json)
    (hdec : (if json then env.jsonUnmarshal bs else env.protoUnmarshal bs) = some m)
    (hh : env.handler (assembleArgs env.hType m) = .ok result) :
    (∀ enc,
       (if json then env.jsonMarshal result else env.protoMarshal result) = some enc →
       (serveHTTP env r).response =
         { status := 200
           contentType := some (if json then "application/json"
                                else "application/octet-stream")
           body := .bytes enc }) ∧
    ((if json then env.jsonMarshal result else env.protoMarshal result) = none →
       (serveHTTP env r).response.status = 500) ∧
    (∀ r2 : HttpRequest, (serveHTTP env r2).response.status ≠ 200 →
       (serveHTTP env r2).response.contentType = none ∧
       (serveHTTP env r2).response.body =
         .text (match env.errorResponse with
                | some f => f ((serveHTTP env r2).response.status)
                | none => "")) := by
  have hd := dispatchInner_negotiated env r bs json hm hb hneg
  refine ⟨?_, ?_, ?_⟩
  · intro enc henc
    have ha := afterNegotiate_okEncoded env bs json m result enc hdec hh henc
    show (if (dispatchInner env r).status = 200 then _ else _) = _
    rw [hd, ha]
    rfl
  · intro henc
    have ha := afterNegotiate_okEncodeFail env bs json m result hdec hh henc
    rw [serveHTTP_status, hd, ha]
  · intro r2 h200
    have hne : (dispatchInner env r2).status ≠ 200 := by
      rw [← serveHTTP_status env r2]
      exact h200
    rw [serveHTTP_error_response env r2 hne]
    exact ⟨dispatchInner_ctHeader env r2 hne, rfl⟩

/-- Witness for C8: the concrete JSON request round-trips through
testEnv's codecs to a 200 response carrying the encoded message. -/
theorem c8_witness :
    (serveHTTP testEnv reqJSON).response =
      { status := 200, contentType := some "application/json",
        body := .bytes [2] } :=
  (c8_response_shape testEnv reqJSON [7] true 1 2 rfl rfl (by decide)
    rfl rfl).1 [2] rfl

/-- Claim C1: every handler accepted at construction is classified into
the variant the spec's arity and first-parameter rules prescribe
(specClassify); a parameter shape those rules reject fails
construction; and the argument list assembled at dispatch for each
variant equals the documented order — context or request first if
applicable, then the bound parameter if applicable, then the decoded
message last. -/
theorem c1_binding_and_order (ty : FuncType) (pv : Option GoType) :
    (∀ d, UPSWithParameterAndConfig ty pv = some d →
       specClassify ty.ins = some d.hType) ∧
    (specClassify ty.ins = none → UPSWithParameterAndConfig ty pv = none) ∧
    (∀ (Msg : Type) (ht : HandlerTy) (m : Msg),
       assembleArgs ht m = specArgs ht m) := by
  refine ⟨?_, ?_, ?_⟩
  · intro d h
    rcases hci : classifyIns ty.ins with _ | ⟨ht, reqTy, paramTy⟩
    · simp only [UPSWithParameterAndConfig, hci] at h
      split at h
      · exact Option.noConfusion h
      · exact Option.noConfusion h
    · have hspec : specClassify ty.ins = some ht := by
        rw [← classifyIns_fst, hci]
        rfl
      rcases paramTy with _ | pt
      · simp only [UPSWithParameterAndConfig, hci] at h
        split at h
        · exact Option.noConfusion h
        · split at h
          · exact Option.noConfusion h
          · rw [← Option.some.inj h]
            exact hspec
      · rcases pv with _ | vt
        · simp only [UPSWithParameterAndConfig, hci] at h
          split at h
          · exact Option.noConfusion h
          · split at h
            · exact Option.noConfusion h
            · exact Option.noConfusion h
        · simp only [UPSWithParameterAndConfig, hci] at h
          split at h
          · exact Option.noConfusion h
          · split at h
            · exact Option.noConfusion h
            · split at h
              · rw [← Option.some.inj h]
                exact hspec
              · exact Option.noConfusion h
  · intro hnone
    have hci : classifyIns ty.ins = none := by
      have h := classifyIns_fst ty.ins
      rw [hnone] at h
      exact Option.map_eq_none'.mp h
    simp only [UPSWithParameterAndConfig, hci]
    split
    · rfl
    · rfl
  · intro Msg ht m
    cases ht <;> rfl

/-- Witness for C1 at the context+boundparam+message variant: the
concrete handler type binds, is classified contextParam, and the
assembled arguments follow the documented order. -/
theorem c1_witness :
    specClassify [GoType.contextTy, GoType.otherTy "p", GoType.msgPtr "Req"] =
      some HandlerTy.contextParam ∧
    assembleArgs HandlerTy.contextParam (3 : Nat) =
      specArgs HandlerTy.contextParam 3 :=
  ⟨(c1_binding_and_order
      ⟨[.contextTy, .otherTy "p", .msgPtr "Req"], [.msgPtr "Resp"]⟩
      (some (.otherTy "p"))).1 ⟨.contextParam, .msgPtr "Req"⟩ (by decide),
   (c1_binding_and_order
      ⟨[.contextTy, .otherTy "p", .msgPtr "Req"], [.msgPtr "Resp"]⟩
      (some (.otherTy "p"))).2.2 Nat .contextParam 3⟩

/-- Claim C7: construction succeeds exactly when the handler shape is
valid — return arity 1 or 2 with a structured-message first return and
an error-like second return, a classifiable parameter list whose last
parameter is a structured message, and, when a bound-parameter variant
is selected, a supplied bound parameter assignable to the declared
type.  Construction failure (Go panic) is modelled as none. -/
theorem c7_construction_validity (ty : FuncType) (pv : Option GoType) :
    (UPSWithParameterAndConfig ty pv).isSome = true ↔ specShapeValid ty pv := by
  rw [bind_isSome, Bool.and_eq_true, checkReturns_iff, insOK_iff]
  simp only [specShapeValid]

end UPS
